import Mathlib

/-!
Verification development for the cosmos-withdrawer repository.

The Rust sources are shallowly embedded: pure control flow is translated to
Lean functions, network calls (ABCI queries, commission queries, transaction
lookup, simulation, broadcast) become explicit oracle parameters, fallible
code returns Except, machine integers become Nat (amounts are arbitrary
precision BigUint in the source), and f64 gas prices become Rat (no claim
depends on float rounding).  HashMap / HashSet values are modelled as
association lists with unique keys / duplicate-free insertion-order lists.
-/

set_option autoImplicit false

set_option maxRecDepth 400000

namespace CosmosWithdrawer

/-! ## Basic data model (cosmrs / proto types used by the repository) -/

/-- `cosmrs::AccountId`: a bech32 human-readable part plus raw address bytes.
`AccountId::to_bytes` returns only the payload bytes, `AccountId::prefix`
returns the human-readable part. -/
structure AccountId where
  hrp : String
  addrBytes : List Nat
  deriving DecidableEq, Repr

/-- `cosmos.base.v1beta1.DecCoin` as it reaches the decision loop: a denom and
a decimal string amount (the source parses it with `BigUint::from_str`). -/
structure DecCoin where
  denom : String
  amount : String
  deriving DecidableEq, Repr

/-- One entry of `QueryDelegationTotalRewardsResponse.rewards`
(`DelegationDelegatorReward`): validator operator address plus reward coins. -/
structure DelegationDelegatorReward where
  validator_address : String
  reward : List DecCoin
  deriving DecidableEq, Repr

/-- `StrCoin` (src/cosmos_sdk_extra/str_coin.rs) after parsing: an integer
amount (u128 in the source) and a denom; used for the threshold arguments. -/
structure StrCoin where
  denom : String
  amount : Nat
  deriving DecidableEq, Repr

/-- `FloatStrCoin` after parsing; the f64 amount is modelled as Rat. -/
structure FloatStrCoin where
  amount : Rat
  denom : String
  deriving DecidableEq, Repr

/-- Error model.  The source uses `eyre` string errors; each constructor
stands for one distinct error site, carrying the data the message shows. -/
inductive Err where
  | invalidValidatorAddress
  | invalidCoinAmount
  | protoDecodeFailure
  | missingNestedAccount (msg : String)
  | unsupportedAccountType (typeUrl : String)
  | accountNotInitialized (which : String)
  | missingPubKeyInfo
  | hrpMismatch (which : String)
  | addressesEqual (which : String)
  | unknownChainGasConfig (chainId : String)
  | signerSetupFailure
  | simulateFailure
  | signDocEncodeFailure
  | signingFailure
  | broadcastRejected
  | confirmationTimeout
  deriving DecidableEq, Repr

/-- Decimal digit value of a character, if it is a digit. -/
def charDigit? (ch : Char) : Option Nat :=
  if 48 ≤ ch.toNat ∧ ch.toNat ≤ 57 then some (ch.toNat - 48) else none

/-- One step of decimal parsing: fails on a non-digit, otherwise appends the
digit to the accumulator. -/
def parseBigUintStep (acc : Option Nat) (ch : Char) : Option Nat :=
  match acc, charDigit? ch with
  | some n, some d => some (n * 10 + d)
  | _, _ => none

/-- `BigUint::from_str` on the decimal amount strings coming from the chain:
succeeds exactly on non-empty all-digit strings (the digit strings produced
by the chain carry no sign). -/
def parseBigUint (s : String) : Option Nat :=
  match s.data with
  | [] => none
  | ch :: rest => rest.foldl parseBigUintStep (parseBigUintStep (some 0) ch)

/-! ## Reward decision pass (src/cmd/withdraw.rs lines 69-124)

`withdraw_validators` is a `HashSet<String>` — modelled as a duplicate-free
insertion-order list.  `collected_coins` and `thresholds_by_denom` are
`HashMap<String, BigUint>` — modelled as association lists with unique keys. -/

/-- `HashSet::insert`: add the element unless already present. -/
def hashSetInsert (s : List String) (x : String) : List String :=
  if x ∈ s then s else s ++ [x]

/-- `*collected_coins.entry(denom).or_default() += amount`. -/
def ledgerAdd : List (String × Nat) → String → Nat → List (String × Nat)
  | [], d, a => [(d, a)]
  | (k, v) :: rest, d, a =>
    if k = d then (k, v + a) :: rest else (k, v) :: ledgerAdd rest d a

/-- Map lookup on an association list (first matching key). -/
def lookupDenom : List (String × Nat) → String → Option Nat
  | [], _ => none
  | (k, v) :: rest, d => if k = d then some v else lookupDenom rest d

/-- `HashMap::insert` with overwrite semantics. -/
def mapInsert (m : List (String × Nat)) (d : String) (a : Nat) : List (String × Nat) :=
  if (lookupDenom m d).isSome then
    m.map (fun p => if p.1 = d then (p.1, a) else p)
  else
    m ++ [(d, a)]

/-- `thresholds.iter().map(|coin| (denom, amount)).collect::<HashMap<_,_>>()`:
sequential insertion, a later duplicate denom overwrites an earlier one. -/
def collectThresholds (thresholds : List StrCoin) : List (String × Nat) :=
  thresholds.foldl (fun m c => mapInsert m c.denom c.amount) []

/-- The mutable decision state of the loop in `withdraw`. -/
structure DecisionState where
  withdraw_self_valoper : Option String
  withdraw_validators : List String
  collected_coins : List (String × Nat)
  deriving DecidableEq, Repr

/-- Initial decision state (`None`, empty set, empty map). -/
def initialDecision : DecisionState :=
  { withdraw_self_valoper := none, withdraw_validators := [], collected_coins := [] }

/-- Body of the inner `for coin in reward.reward` loop of `withdraw`
(lines 100-123): parse the amount (fatal on failure), skip denominations with
no configured threshold, skip amounts below threshold, otherwise insert the
validator into the withdrawal set and add the amount to the ledger. -/
def processCoin (thresholds : String → Option Nat) (validatorAddress : String)
    (s : DecisionState) (c : DecCoin) : Except Err DecisionState :=
  match parseBigUint c.amount with
  | none => Except.error Err.invalidCoinAmount
  | some amount =>
    match thresholds c.denom with
    | none => Except.ok s
    | some threshold =>
      if amount < threshold then
        Except.ok s
      else
        Except.ok { s with
          withdraw_validators := hashSetInsert s.withdraw_validators validatorAddress,
          collected_coins := ledgerAdd s.collected_coins c.denom amount }

/-- One step of the commission accumulation loop (lines 87-94). -/
def commissionCoinStep (st : DecisionState) (c : DecCoin) : Except Err DecisionState :=
  match parseBigUint c.amount with
  | none => Except.error Err.invalidCoinAmount
  | some amount =>
    Except.ok { st with collected_coins := ledgerAdd st.collected_coins c.denom amount }

/-- Body of the commission branch of `withdraw` (lines 85-97): on a present
commission result, parse and accumulate every commission coin, then record the
validator as the pending self-commission withdrawal. -/
def processCommission (commission : String → Option (List DecCoin))
    (s : DecisionState) (validatorAddress : String) : Except Err DecisionState :=
  match commission validatorAddress with
  | none => Except.ok s
  | some coins =>
    match coins.foldlM commissionCoinStep s with
    | Except.error e => Except.error e
    | Except.ok s' => Except.ok { s' with withdraw_self_valoper := some validatorAddress }

/-- One iteration of the outer `for reward in rewards` loop (lines 78-124).
`toBytes` models `AccountId::from_str(..).to_bytes()` (bech32 payload bytes);
the self-commission branch runs when the validator bytes equal the
delegator's address bytes, then every reward coin is processed. -/
def processEntry (toBytes : String → Option (List Nat)) (delegatorAddress : AccountId)
    (commission : String → Option (List DecCoin)) (thresholds : String → Option Nat)
    (s : DecisionState) (entry : DelegationDelegatorReward) : Except Err DecisionState :=
  match toBytes entry.validator_address with
  | none => Except.error Err.invalidValidatorAddress
  | some validatorBytes =>
    match (if validatorBytes = delegatorAddress.addrBytes then
        processCommission commission s entry.validator_address
      else
        Except.ok s) with
    | Except.error e => Except.error e
    | Except.ok s₁ => entry.reward.foldlM (processCoin thresholds entry.validator_address) s₁

/-- The full decision pass of `withdraw` over the total-rewards response. -/
def decisionPass (toBytes : String → Option (List Nat)) (delegatorAddress : AccountId)
    (commission : String → Option (List DecCoin)) (thresholds : String → Option Nat)
    (rewards : List DelegationDelegatorReward) : Except Err DecisionState :=
  rewards.foldlM (processEntry toBytes delegatorAddress commission thresholds) initialDecision

/-! ## Chain metadata and account resolution (src/chain.rs, src/cmd/mod.rs) -/

/-- Bech32 human-readable parts resolved for the chain (account and valoper).
Field names follow `chain_info.bech32.account_*` as used by src/cmd/mod.rs. -/
structure Bech32Prefixes where
  accountHrp : String
  valoperHrp : String
  deriving DecidableEq, Repr

/-- `ChainInfo` (src/chain.rs). -/
structure ChainInfo where
  id : String
  chain_supports_setting_withdrawal_address : Bool
  bech32 : Bech32Prefixes
  deriving DecidableEq, Repr

/-- `WalletKeyType` (src/wallet/mod.rs): the two supported key schemes. -/
inductive WalletKeyType where
  | secp256k1
  | ethermintSecp256k1 (injective : Bool)
  deriving DecidableEq, Repr

/-- `cosmos.auth.v1beta1.BaseAccount`; `pub_key` is kept as the optional
type URL of the `Any`, which is all the callers inspect. -/
structure BaseAccount where
  address : String
  pub_key : Option String
  account_number : Nat
  sequence : Nat
  deriving DecidableEq, Repr

/-- `cosmos.vesting.v1beta1.BaseVestingAccount`: optional embedded base
account (proto `optional message` field). -/
structure BaseVestingAccount where
  base_account : Option BaseAccount
  deriving DecidableEq, Repr

/-- The decoded payload carried by the `Any` returned from the account query.
`undecodedBlob` stands for bytes that decode as none of the known messages. -/
inductive AccountPayload where
  | base (a : BaseAccount)
  | continuousVesting (base_vesting_account : Option BaseVestingAccount)
  | periodicVesting (base_vesting_account : Option BaseVestingAccount)
  | ethAccount (base_account : BaseAccount) (code_hash : List Nat)
  | injectiveEthAccount (base_account : BaseAccount) (code_hash : List Nat)
  | undecodedBlob
  deriving DecidableEq, Repr

/-- `prost::Any`: a type URL plus (decoded) payload. -/
structure AnyAccount where
  type_url : String
  payload : AccountPayload
  deriving DecidableEq, Repr

/-- `account.to_msg::<BaseAccount>()`. -/
def decodeBaseAccount : AccountPayload → Except Err BaseAccount
  | .base a => Except.ok a
  | _ => Except.error Err.protoDecodeFailure

/-- `account.to_msg::<ContinuousVestingAccount>()`. -/
def decodeContinuousVesting : AccountPayload → Except Err (Option BaseVestingAccount)
  | .continuousVesting bva => Except.ok bva
  | _ => Except.error Err.protoDecodeFailure

/-- `account.to_msg::<PeriodicVestingAccount>()`. -/
def decodePeriodicVesting : AccountPayload → Except Err (Option BaseVestingAccount)
  | .periodicVesting bva => Except.ok bva
  | _ => Except.error Err.protoDecodeFailure

/-- `account.to_msg::<EthAccount>()` (src/cosmos_sdk_extra/ethermint/mod.rs,
`base_account` is a required proto field). -/
def decodeEthAccount : AccountPayload → Except Err BaseAccount
  | .ethAccount a _ => Except.ok a
  | _ => Except.error Err.protoDecodeFailure

/-- `account.to_msg::<InjectiveEthAccount>()` (src/cosmos_sdk_extra/injective/mod.rs). -/
def decodeInjectiveEthAccount : AccountPayload → Except Err BaseAccount
  | .injectiveEthAccount a _ => Except.ok a
  | _ => Except.error Err.protoDecodeFailure

/-- Unwrap an `Option` the way `eyre::ContextCompat::wrap_err` does: `None`
becomes the given error. -/
def okOr {α : Type} (o : Option α) (e : Err) : Except Err α :=
  match o with
  | some a => Except.ok a
  | none => Except.error e

/-- `get_account_info` (src/chain.rs lines 107-164), with the already-decoded
query response as input: `None` when the account is uninitialized, otherwise
dispatch on the reported type URL, unwrapping vesting / Ethermint / Injective
wrappers down to the embedded `BaseAccount`; unknown type URLs fail with the
unsupported-account-type error carrying the URL. -/
def unwrapVesting (a : Except Err (Option BaseVestingAccount)) (whichMsg : String) :
    Except Err (Option BaseAccount) :=
  match a with
  | Except.error e => Except.error e
  | Except.ok bva =>
    match okOr bva (Err.missingNestedAccount whichMsg) with
    | Except.error e => Except.error e
    | Except.ok bva =>
      match okOr bva.base_account
          (Err.missingNestedAccount "BaseVestingAccount does not have BaseAccount data") with
      | Except.error e => Except.error e
      | Except.ok base => Except.ok (some base)

def get_account_info (response : Option AnyAccount) : Except Err (Option BaseAccount) :=
  match response with
  | none => Except.ok none
  | some account =>
    if account.type_url = "/cosmos.auth.v1beta1.BaseAccount" then
      match decodeBaseAccount account.payload with
      | Except.error e => Except.error e
      | Except.ok a => Except.ok (some a)
    else if account.type_url = "/cosmos.vesting.v1beta1.ContinuousVestingAccount" then
      unwrapVesting (decodeContinuousVesting account.payload)
        "Continuous does not have BaseVestingAccount data"
    else if account.type_url = "/cosmos.vesting.v1beta1.PeriodicVestingAccount" then
      unwrapVesting (decodePeriodicVesting account.payload)
        "PeriodicVestingAccount does not have BaseVestingAccount data"
    else if account.type_url = "/ethermint.types.v1.EthAccount" then
      match decodeEthAccount account.payload with
      | Except.error e => Except.error e
      | Except.ok a => Except.ok (some a)
    else if account.type_url = "/injective.types.v1beta1.EthAccount" then
      match decodeInjectiveEthAccount account.payload with
      | Except.error e => Except.error e
      | Except.ok a => Except.ok (some a)
    else
      Except.error (Err.unsupportedAccountType account.type_url)

/-! ## Account arguments (src/cmd/mod.rs) -/

/-- `AccountArgs` (src/cmd/mod.rs): the fields consumed by
`verify_accounts` / `get_account_details`.  Mnemonics and coin types are
consumed only inside `setup_signer`, which is modelled as an oracle. -/
structure AccountArgs where
  delegator_address : AccountId
  delegator_address_type : Option WalletKeyType
  controller_address : AccountId
  controller_address_type : Option WalletKeyType
  reward_address : Option AccountId
  deriving DecidableEq, Repr

/-- `AccountArgs::verify_accounts` (src/cmd/mod.rs lines 92-135): purely local
checks run before any on-chain lookup, in source order: delegator prefix,
controller prefix, delegator = controller, then (when a reward address is
supplied) reward prefix and reward = delegator. -/
def verify_accounts (args : AccountArgs) (chain_info : ChainInfo) : Except Err Unit :=
  if args.delegator_address.hrp ≠ chain_info.bech32.accountHrp then
    Except.error (Err.hrpMismatch "delegator")
  else if args.controller_address.hrp ≠ chain_info.bech32.accountHrp then
    Except.error (Err.hrpMismatch "controller")
  else if args.delegator_address = args.controller_address then
    Except.error (Err.addressesEqual "delegator and controller")
  else
    match args.reward_address with
    | some reward_address =>
      if reward_address.hrp ≠ chain_info.bech32.accountHrp then
        Except.error (Err.hrpMismatch "reward")
      else if reward_address = args.delegator_address then
        Except.error (Err.addressesEqual "delegator and reward")
      else
        Except.ok ()
    | none => Except.ok ()

/-- Modelled from the spec: `WalletKeyType::override_type` is called by
`get_account_details` but its definition is not among the source files.  Per
the flag documentation ("Determined from the account info on chain by
default") and the spec's account-resolution contract, a caller-supplied
override replaces the chain-determined scheme when present. -/
def override_type (k : WalletKeyType) (o : Option WalletKeyType) : WalletKeyType :=
  match o with
  | some t => t
  | none => k

/-- `ResolvedAccounts` (src/cmd/mod.rs). -/
structure ResolvedAccounts where
  delegator_account : BaseAccount
  delegator_key_type : WalletKeyType
  controller_account : BaseAccount
  controller_key_type : WalletKeyType
  deriving DecidableEq, Repr

/-- `AccountArgs::get_account_details` (src/cmd/mod.rs lines 137-182).  The
two `get_account_info` network lookups are supplied as oracle values: `none`
for an uninitialized account, otherwise the base account paired with the
optional key scheme read from its on-chain public key.  The delegator's
on-chain scheme is mandatory (the `wrap_err(..)?` fires before the override is
consulted); the controller falls back to the delegator's resolved scheme. -/
def get_account_details (args : AccountArgs) (chain_info : ChainInfo)
    (delegatorLookup controllerLookup : Option (BaseAccount × Option WalletKeyType)) :
    Except Err ResolvedAccounts :=
  match verify_accounts args chain_info with
  | Except.error e => Except.error e
  | Except.ok _ =>
    match delegatorLookup with
    | none => Except.error (Err.accountNotInitialized "delegator")
    | some (delegator_account, delegator_key_onchain) =>
      match delegator_key_onchain with
      | none => Except.error Err.missingPubKeyInfo
      | some delegator_key_chain =>
        let delegator_key_type :=
          override_type delegator_key_chain args.delegator_address_type
        match controllerLookup with
        | none => Except.error (Err.accountNotInitialized "controller")
        | some (controller_account, controller_key_onchain) =>
          let controller_key_type :=
            override_type (controller_key_onchain.getD delegator_key_type)
              args.controller_address_type
          Except.ok {
            delegator_account := delegator_account,
            delegator_key_type := delegator_key_type,
            controller_account := controller_account,
            controller_key_type := controller_key_type }

/-! ## Gas determination (src/cosmos_sdk_extra/gas.rs, src/cmd/mod.rs) -/

/-- `GasOption` (src/cmd/mod.rs): literal "auto" or a numeric limit. -/
inductive GasOption where
  | auto
  | amount (value : Nat)
  deriving DecidableEq, Repr

/-- `TransactionArgs` (src/cmd/mod.rs), f64 modelled as Rat. -/
structure TransactionArgs where
  memo : String
  gas : GasOption
  gas_adjustment : Rat
  gas_prices : List FloatStrCoin
  sequence : Option Nat
  account_number : Option Nat
  generate_only : Bool
  dry_run : Bool
  deriving DecidableEq, Repr

/-- `Coin` (amount u128, denom). -/
structure Coin where
  amount : Nat
  denom : String
  deriving DecidableEq, Repr

/-- `cosmrs::tx::Fee` as produced by `Fee::from_amount_and_gas`. -/
structure Fee where
  amount : List Coin
  gas_limit : Nat
  deriving DecidableEq, Repr

/-- `GasInfo` (src/cosmos_sdk_extra/gas.rs). -/
structure GasInfo where
  price : Rat
  adjustment : Rat
  denom : String
  limit : Option Nat
  deriving DecidableEq, Repr

/-- Lookup in the static `CHAIN_GAS_DENOMS_PRICES` table (chain id →
(denom, price)); the table contents are bundled data, so it is a parameter. -/
def lookupChainGas : List (String × String × Rat) → String → Option (String × Rat)
  | [], _ => none
  | (id, d, p) :: rest, chainId => if id = chainId then some (d, p) else lookupChainGas rest chainId

/-- `GasInfo::determine_gas` (src/cosmos_sdk_extra/gas.rs lines 20-50):
first gas price wins if supplied, else the static table price for the chain
id, else the unknown-chain-gas-config error; the limit comes from the gas
option (`auto` → None). -/
def determine_gas (knownPrices : List (String × String × Rat)) (chain_info : ChainInfo)
    (transaction_args : TransactionArgs) : Except Err GasInfo :=
  let adjustment := transaction_args.gas_adjustment
  let suppliedPrice := transaction_args.gas_prices.head?
  let knownPrice := lookupChainGas knownPrices chain_info.id
  match (match suppliedPrice, knownPrice with
    | some supplied, _ => Except.ok (supplied.denom, supplied.amount)
    | none, some known => Except.ok known
    | none, none => Except.error (Err.unknownChainGasConfig chain_info.id)) with
  | Except.error e => Except.error e
  | Except.ok (denom, price) =>
    let limit := match transaction_args.gas with
      | GasOption.auto => none
      | GasOption.amount value => some value
    Except.ok { price := price, adjustment := adjustment, denom := denom, limit := limit }

/-- `(x : Rat).ceil` clamped to Nat, modelling `f64::ceil` followed by the
`as u128` cast on the non-negative values that occur here. -/
def ratCeilNat (x : Rat) : Nat :=
  x.ceil.toNat

/-- `GasInfo::get_fee` (src/cosmos_sdk_extra/gas.rs lines 52-62): `Some` fee
iff an explicit limit is present. -/
def GasInfo.get_fee (g : GasInfo) : Option Fee :=
  match g.limit with
  | some limit =>
    some { amount := [{ amount := ratCeilNat ((ratCeilNat ((limit : Rat) * g.adjustment) : Rat) * g.price),
                        denom := g.denom }],
           gas_limit := limit }
  | none => none

/-! ## Messages and the withdraw pipeline (src/cmd/withdraw.rs) -/

/-- The authz-wrapped messages built by `withdraw` (lines 137-150). -/
inductive AuthzMsg where
  | withdrawDelegatorReward (delegator_address : AccountId) (validator_address : String)
  | withdrawValidatorCommission (validator_address : String)
  deriving DecidableEq, Repr

/-- The top-level message list of `withdraw`: a single `MsgExecCustom`
attributed to the controller (lines 184-190). -/
inductive Msg where
  | execCustom (grantee : AccountId) (msgs : List AuthzMsg)
  deriving DecidableEq, Repr

/-- The authz message list built from the decision state: one
withdraw-reward message per validator in the set, then the commission
message when a self-commission withdrawal is pending. -/
def buildAuthzMsgs (delegator : AccountId) (s : DecisionState) : List AuthzMsg :=
  s.withdraw_validators.map (fun v => AuthzMsg.withdrawDelegatorReward delegator v)
    ++ (match s.withdraw_self_valoper with
        | some v => [AuthzMsg.withdrawValidatorCommission v]
        | none => [])

/-- How one `withdraw` invocation ends, recording everything observable:
which messages were emitted, whether a signature was produced, and whether
the transaction was broadcast. -/
inductive WithdrawOutcome where
  | nothingToWithdraw
  | generatedUnsigned (msgs : List Msg) (fee : Fee)
  | dryRunStop (msgs : List Msg)
  | broadcasted (msgs : List Msg) (fee : Fee)
  deriving DecidableEq, Repr

/-- Messages emitted by an outcome. -/
def WithdrawOutcome.messages : WithdrawOutcome → List Msg
  | .nothingToWithdraw => []
  | .generatedUnsigned msgs _ => msgs
  | .dryRunStop msgs => msgs
  | .broadcasted msgs _ => msgs

/-- Whether the outcome involved producing a signature
(`sign_transaction` runs on the dry-run and broadcast paths only). -/
def WithdrawOutcome.performedSigning : WithdrawOutcome → Bool
  | .nothingToWithdraw => false
  | .generatedUnsigned _ _ => false
  | .dryRunStop _ => true
  | .broadcasted _ _ => true

/-- Whether the outcome involved broadcasting the transaction. -/
def WithdrawOutcome.performedBroadcast : WithdrawOutcome → Bool
  | .broadcasted _ _ => true
  | _ => false

/-- The network-facing collaborators of `withdraw`, as oracles: the chain
info and gas table, the two account lookups, the total-rewards response, the
per-validator commission query, validator address parsing, signer setup, the
simulation result and the broadcast acceptance. -/
structure WithdrawEnv where
  chain_info : ChainInfo
  knownPrices : List (String × String × Rat)
  delegatorLookup : Option (BaseAccount × Option WalletKeyType)
  controllerLookup : Option (BaseAccount × Option WalletKeyType)
  rewards : List DelegationDelegatorReward
  commission : String → Option (List DecCoin)
  toBytes : String → Option (List Nat)
  signerSetup : Except Err Unit
  simulatedFee : Except Err Fee
  broadcastAccepted : Except Err Unit

/-- `withdraw` (src/cmd/withdraw.rs lines 37-250) from gas determination on:
resolve gas and accounts, run the decision pass, return successfully doing
nothing when nothing crossed a threshold and no self-commission was found,
otherwise build the authz messages, set up the signer (infallible for
`--generate-only`, which uses a random key), resolve the fee (simulating when
no explicit limit), then stop after printing for `--generate-only`, stop
after signing for `--dry-run`, else broadcast. -/
def withdrawLate (env : WithdrawEnv) (transaction_args : TransactionArgs)
    (gas_info : GasInfo) (msgs : List Msg) : Except Err WithdrawOutcome :=
  match (if transaction_args.generate_only then Except.ok () else env.signerSetup) with
  | Except.error e => Except.error e
  | Except.ok _ =>
    match (match gas_info.get_fee with
      | some fee => Except.ok fee
      | none => env.simulatedFee) with
    | Except.error e => Except.error e
    | Except.ok fee =>
      if transaction_args.generate_only then
        Except.ok (WithdrawOutcome.generatedUnsigned msgs fee)
      else if transaction_args.dry_run then
        Except.ok (WithdrawOutcome.dryRunStop msgs)
      else
        match env.broadcastAccepted with
        | Except.error e => Except.error e
        | Except.ok _ => Except.ok (WithdrawOutcome.broadcasted msgs fee)

def withdraw (env : WithdrawEnv) (account : AccountArgs)
    (transaction_args : TransactionArgs) (thresholds : List StrCoin) :
    Except Err WithdrawOutcome :=
  match determine_gas env.knownPrices env.chain_info transaction_args with
  | Except.error e => Except.error e
  | Except.ok gas_info =>
    match get_account_details account env.chain_info
        env.delegatorLookup env.controllerLookup with
    | Except.error e => Except.error e
    | Except.ok _resolved =>
      match decisionPass env.toBytes account.delegator_address env.commission
          (lookupDenom (collectThresholds thresholds)) env.rewards with
      | Except.error e => Except.error e
      | Except.ok s =>
        if s.withdraw_validators.isEmpty && s.withdraw_self_valoper.isNone then
          Except.ok WithdrawOutcome.nothingToWithdraw
        else
          let authz_msgs := buildAuthzMsgs account.delegator_address s
          let msgs := [Msg.execCustom account.controller_address authz_msgs]
          withdrawLate env transaction_args gas_info msgs

/-! ## Broadcast result and confirmation polling (src/cosmos_sdk_extra/tx.rs) -/

/-- The fields of the sync-broadcast response that `print_tx_result` uses. -/
structure BroadcastResponse where
  codespace : String
  code : Nat
  log : String
  hash : String
  deriving DecidableEq, Repr

/-- A found transaction; only its identity matters to the poller. -/
structure FoundTx where
  hash : String
  deriving DecidableEq, Repr

/-- `print_tx_result` (src/cosmos_sdk_extra/tx.rs lines 41-55): a non-zero
response code is a fatal rejection. -/
def print_tx_result (result : BroadcastResponse) : Except Err Unit :=
  if result.code ≠ 0 then Except.error Err.broadcastRejected else Except.ok ()

/-- The trace of one poll run: the number of lookups performed and the
sequence of sleep durations (milliseconds) executed between them. -/
structure PollTrace where
  lookups : Nat
  sleeps : List Nat
  deriving DecidableEq, Repr

/-- The loop of `poll_tx` from a given attempt index with the given number
of attempts remaining; each failed lookup is followed by a 2500 ms sleep. -/
def pollFrom (lookup : Nat → Option FoundTx) (attempt remaining : Nat) :
    Except Err FoundTx × PollTrace :=
  match remaining with
  | 0 => (Except.error Err.confirmationTimeout, { lookups := 0, sleeps := [] })
  | r + 1 =>
    match lookup attempt with
    | some tx => (Except.ok tx, { lookups := 1, sleeps := [] })
    | none =>
      let (res, trace) := pollFrom lookup (attempt + 1) r
      (res, { lookups := trace.lookups + 1, sleeps := 2500 :: trace.sleeps })

/-- `poll_tx` (src/cosmos_sdk_extra/tx.rs lines 57-71): up to 5 lookups of
the transaction by hash, sleeping 2500 ms after every failed lookup,
returning the transaction on first success and the confirmation-timeout
error after exhausting the attempts.  `lookup` models
`Tx::find_by_hash` at each attempt index. -/
def poll_tx (lookup : Nat → Option FoundTx) : Except Err FoundTx × PollTrace :=
  pollFrom lookup 0 5

/-! ## Hash primitives used by address derivation

The external crates `sha3` (Keccak-256), and the SHA-256 / RIPEMD-160 pair
behind `cosmrs::crypto::PublicKey::account_id`, are embedded as executable
functions on byte lists (bytes are `Nat` values below 256, words carry an
explicit mask). -/

def mask32 : Nat := 0xffffffff

def mask64 : Nat := 0xffffffffffffffff

def rotl32 (x n : Nat) : Nat :=
  Nat.lor (x <<< n) (x >>> (32 - n)) &&& mask32

def rotr32 (x n : Nat) : Nat :=
  Nat.lor (x >>> n) (x <<< (32 - n)) &&& mask32

def rotl64 (x n : Nat) : Nat :=
  Nat.lor (x <<< n) (x >>> (64 - n)) &&& mask64

/-- Split a list into consecutive chunks of `n` elements (the input length
is always a multiple of `n` at the call sites). -/
def chunks {α : Type} (n : Nat) (l : List α) : List (List α) :=
  (List.range (l.length / n)).map (fun i => (l.drop (n * i)).take n)

/-- Big-endian word from bytes. -/
def beWord (bytes : List Nat) : Nat :=
  bytes.foldl (fun acc b => acc * 256 + b) 0

/-- Little-endian word from bytes. -/
def leWord (bytes : List Nat) : Nat :=
  bytes.foldr (fun b acc => b + 256 * acc) 0

def be32Bytes (x : Nat) : List Nat :=
  [(x >>> 24) &&& 255, (x >>> 16) &&& 255, (x >>> 8) &&& 255, x &&& 255]

def be64Bytes (x : Nat) : List Nat :=
  [(x >>> 56) &&& 255, (x >>> 48) &&& 255, (x >>> 40) &&& 255, (x >>> 32) &&& 255,
   (x >>> 24) &&& 255, (x >>> 16) &&& 255, (x >>> 8) &&& 255, x &&& 255]

def le32Bytes (x : Nat) : List Nat :=
  [x &&& 255, (x >>> 8) &&& 255, (x >>> 16) &&& 255, (x >>> 24) &&& 255]

def le64Bytes (x : Nat) : List Nat :=
  (List.range 8).map (fun k => (x >>> (8 * k)) &&& 255)

/-- 32-byte big-endian encoding of a 256-bit integer. -/
def beBytes32 (x : Nat) : List Nat :=
  (List.range 32).map (fun k => (x >>> (8 * (31 - k))) &&& 255)

/-! ### SHA-256 -/

def sha256K : List Nat :=
  [1116352408, 1899447441, 3049323471, 3921009573, 961987163,
   1508970993, 2453635748, 2870763221, 3624381080, 310598401,
   607225278, 1426881987, 1925078388, 2162078206, 2614888103,
   3248222580, 3835390401, 4022224774, 264347078, 604807628,
   770255983, 1249150122, 1555081692, 1996064986, 2554220882,
   2821834349, 2952996808, 3210313671, 3336571891, 3584528711,
   113926993, 338241895, 666307205, 773529912, 1294757372,
   1396182291, 1695183700, 1986661051, 2177026350, 2456956037,
   2730485921, 2820302411, 3259730800, 3345764771, 3516065817,
   3600352804, 4094571909, 275423344, 430227734, 506948616,
   659060556, 883997877, 958139571, 1322822218, 1537002063,
   1747873779, 1955562222, 2024104815, 2227730452, 2361852424,
   2428436474, 2756734187, 3204031479, 3329325298]

def sha256H0 : List Nat :=
  [1779033703, 3144134277, 1013904242, 2773480762,
   1359893119, 2600822924, 528734635, 1541459225]

/-- Merkle–Damgård padding: 0x80, zeros to 56 mod 64, 64-bit length. -/
def sha256Pad (m : List Nat) : List Nat :=
  m ++ 0x80 :: List.replicate ((119 - (m.length % 64)) % 64) 0 ++ be64Bytes (8 * m.length)

/-- The choice function of the SHA-256 round, in the folded form
`g xor (e and (f xor g))`. -/
def shaCh (e f g : Nat) : Nat :=
  Nat.xor g (Nat.land e (Nat.xor f g))

/-- The majority function of the SHA-256 round, in the folded form
`(a and b) xor (c and (a xor b))`. -/
def shaMaj (a b c : Nat) : Nat :=
  Nat.xor (Nat.land a b) (Nat.land c (Nat.xor a b))

/-- Three-way rotation mix used by the big sigmas. -/
def shaMixRot (x r1 r2 r3 : Nat) : Nat :=
  Nat.xor (Nat.xor (rotr32 x r1) (rotr32 x r2)) (rotr32 x r3)

/-- Two rotations and a shift, used by the schedule sigmas. -/
def shaMixShift (x r1 r2 s : Nat) : Nat :=
  Nat.xor (Nat.xor (rotr32 x r1) (rotr32 x r2)) (x >>> s)

/-- The big sigma-0 rotation mix. -/
def shaS0 (a : Nat) : Nat :=
  shaMixRot a 2 13 22

/-- The big sigma-1 rotation mix. -/
def shaS1 (e : Nat) : Nat :=
  shaMixRot e 6 11 25

/-- The small sigma-0 schedule mix. -/
def shaW0 (x : Nat) : Nat :=
  shaMixShift x 7 18 3

/-- The small sigma-1 schedule mix. -/
def shaW1 (x : Nat) : Nat :=
  shaMixShift x 17 19 10

/-- Extend 16 message words to the 64-word schedule. -/
def sha256Sched (block : List Nat) : List Nat :=
  (List.range 48).foldl (fun w _ =>
    let n := w.length
    let s0 := shaW0 (w.getD (n - 15) 0)
    let s1 := shaW1 (w.getD (n - 2) 0)
    w ++ [(w.getD (n - 16) 0 + s0 + w.getD (n - 7) 0 + s1) &&& mask32]) block

def sha256Compress (h : List Nat) (block : List Nat) : List Nat :=
  let w := sha256Sched block
  let final := (List.range 64).foldl (fun st i =>
    match st with
    | [a, b, c, d, e, f, g, hh] =>
      let t1 := (hh + shaS1 e + shaCh e f g + sha256K.getD i 0 + w.getD i 0) &&& mask32
      let t2 := (shaS0 a + shaMaj a b c) &&& mask32
      [(t1 + t2) &&& mask32, a, b, c, (d + t1) &&& mask32, e, f, g]
    | other => other) h
  (h.zip final).map (fun p => (p.1 + p.2) &&& mask32)

def sha256 (m : List Nat) : List Nat :=
  let digest := (chunks 64 (sha256Pad m)).foldl
    (fun h b => sha256Compress h ((chunks 4 b).map beWord)) sha256H0
  (digest.map be32Bytes).flatten

/-! ### RIPEMD-160 -/

def ripemdH0 : List Nat :=
  [1732584193, 4023233417, 2562383102, 271733878, 3285377520]

def ripemdF (j x y z : Nat) : Nat :=
  if j < 16 then x ^^^ y ^^^ z
  else if j < 32 then (x &&& y) ||| ((x ^^^ mask32) &&& z)
  else if j < 48 then (x ||| (y ^^^ mask32)) ^^^ z
  else if j < 64 then (x &&& z) ||| (y &&& (z ^^^ mask32))
  else x ^^^ (y ||| (z ^^^ mask32))

def ripemdKL (j : Nat) : Nat :=
  if j < 16 then 0 else if j < 32 then 1518500249 else if j < 48 then 1859775393
  else if j < 64 then 2400959708 else 2840853838

def ripemdKR (j : Nat) : Nat :=
  if j < 16 then 1352829926 else if j < 32 then 1548603684 else if j < 48 then 1836072691
  else if j < 64 then 2053994217 else 0

def ripemdRL : List Nat :=
  [0, 1, 2, 3, 4, 5, 6, 7, 8, 9, 10, 11, 12, 13, 14, 15,
   7, 4, 13, 1, 10, 6, 15, 3, 12, 0, 9, 5, 2, 14, 11, 8,
   3, 10, 14, 4, 9, 15, 8, 1, 2, 7, 0, 6, 13, 11, 5, 12,
   1, 9, 11, 10, 0, 8, 12, 4, 13, 3, 7, 15, 14, 5, 6, 2,
   4, 0, 5, 9, 7, 12, 2, 10, 14, 1, 3, 8, 11, 6, 15, 13]

def ripemdRR : List Nat :=
  [5, 14, 7, 0, 9, 2, 11, 4, 13, 6, 15, 8, 1, 10, 3, 12,
   6, 11, 3, 7, 0, 13, 5, 10, 14, 15, 8, 12, 4, 9, 1, 2,
   15, 5, 1, 3, 7, 14, 6, 9, 11, 8, 12, 2, 10, 0, 4, 13,
   8, 6, 4, 1, 3, 11, 15, 0, 5, 12, 2, 13, 9, 7, 10, 14,
   12, 15, 10, 4, 1, 5, 8, 7, 6, 2, 13, 14, 0, 3, 9, 11]

def ripemdSL : List Nat :=
  [11, 14, 15, 12, 5, 8, 7, 9, 11, 13, 14, 15, 6, 7, 9, 8,
   7, 6, 8, 13, 11, 9, 7, 15, 7, 12, 15, 9, 11, 7, 13, 12,
   11, 13, 6, 7, 14, 9, 13, 15, 14, 8, 13, 6, 5, 12, 7, 5,
   11, 12, 14, 15, 14, 15, 9, 8, 9, 14, 5, 6, 8, 6, 5, 12,
   9, 15, 5, 11, 6, 8, 13, 12, 5, 12, 13, 14, 11, 8, 5, 6]

def ripemdSR : List Nat :=
  [8, 9, 9, 11, 13, 15, 15, 5, 7, 7, 8, 11, 14, 14, 12, 6,
   9, 13, 15, 7, 12, 8, 9, 11, 7, 7, 12, 7, 6, 15, 13, 11,
   9, 7, 15, 11, 8, 6, 6, 14, 12, 13, 5, 14, 13, 13, 7, 5,
   15, 5, 8, 11, 14, 14, 6, 14, 6, 9, 12, 9, 12, 5, 15, 8,
   8, 5, 12, 9, 12, 5, 14, 6, 8, 13, 6, 5, 15, 13, 11, 11]

/-- The 80 steps of one RIPEMD-160 line.  `fIdx` is `id` on the left line
and `79 - j` on the right line. -/
def ripemdSteps (X : List Nat) (rr ss : List Nat) (kk : Nat → Nat) (fIdx : Nat → Nat)
    (init : List Nat) : List Nat :=
  (List.range 80).foldl (fun st j =>
    match st with
    | [a, b, c, d, e] =>
      let t := (rotl32 ((a + ripemdF (fIdx j) b c d + X.getD (rr.getD j 0) 0 + kk j) &&& mask32)
        (ss.getD j 0) + e) &&& mask32
      [e, t, b, rotl32 c 10, d]
    | other => other) init

def ripemdCompress (h : List Nat) (X : List Nat) : List Nat :=
  let left := ripemdSteps X ripemdRL ripemdSL ripemdKL (fun j => j) h
  let right := ripemdSteps X ripemdRR ripemdSR ripemdKR (fun j => 79 - j) h
  match h, left, right with
  | [h0, h1, h2, h3, h4], [aL, bL, cL, dL, eL], [aR, bR, cR, dR, eR] =>
    [(h1 + cL + dR) &&& mask32, (h2 + dL + eR) &&& mask32, (h3 + eL + aR) &&& mask32,
     (h4 + aL + bR) &&& mask32, (h0 + bL + cR) &&& mask32]
  | other, _, _ => other

/-- Same padding as SHA-256 but with a little-endian length field. -/
def ripemdPad (m : List Nat) : List Nat :=
  m ++ 0x80 :: List.replicate ((119 - (m.length % 64)) % 64) 0 ++ le64Bytes (8 * m.length)

def ripemd160 (m : List Nat) : List Nat :=
  let digest := (chunks 64 (ripemdPad m)).foldl
    (fun h b => ripemdCompress h ((chunks 4 b).map leWord)) ripemdH0
  (digest.map le32Bytes).flatten

/-! ### Keccak-256 (legacy Keccak padding, as in the `sha3` crate) -/

def keccakRC : List Nat :=
  [1, 32898, 9223372036854808714,
   9223372039002292224, 32907, 2147483649,
   9223372039002292353, 9223372036854808585, 138,
   136, 2147516425, 2147483658,
   2147516555, 9223372036854775947, 9223372036854808713,
   9223372036854808579, 9223372036854808578, 9223372036854775936,
   32778, 9223372039002259466, 9223372039002292353,
   9223372036854808704, 2147483649, 9223372039002292232]

/-- ρ rotation offsets, stored as rows indexed by the x coordinate: entry
`x` holds the offsets for lanes `(x, 0) .. (x, 4)`. -/
def keccakRhoRows : List (List Nat) :=
  [[0, 36, 3, 41, 18],
   [1, 44, 10, 45, 2],
   [62, 6, 43, 15, 61],
   [28, 55, 25, 21, 56],
   [27, 20, 39, 8, 14]]

/-- ρ rotation offset of the lane with index `x + 5 * y`. -/
def keccakRho (i : Nat) : Nat :=
  (keccakRhoRows.getD (i % 5) []).getD (i / 5) 0

/-- ρ and π: rotate each lane and move it to its π destination
`(x, y) ↦ (y, (2x + 3y) mod 5)`. -/
def keccakRhoPi (A : List Nat) : List Nat :=
  (List.range 25).foldl (fun B i =>
    let x := i % 5
    let y := i / 5
    B.set (y + 5 * ((2 * x + 3 * y) % 5)) (rotl64 (A.getD i 0) (keccakRho i)))
    (List.replicate 25 0)

/-- θ column parity: fold the five lanes of one column with xor. -/
def keccakColumn (A : List Nat) (x : Nat) : Nat :=
  ((List.range 5).map (fun y => A.getD (x + 5 * y) 0)).foldl Nat.xor 0

def keccakRound (A : List Nat) (rc : Nat) : List Nat :=
  let C := (List.range 5).map (keccakColumn A)
  let D := (List.range 5).map (fun x =>
    Nat.xor (C.getD ((x + 4) % 5) 0) (rotl64 (C.getD ((x + 1) % 5) 0) 1))
  let A1 := (List.range 25).map (fun i => Nat.xor (A.getD i 0) (D.getD (i % 5) 0))
  let B := keccakRhoPi A1
  let A2 := (List.range 25).map (fun i =>
    let x := i % 5
    let y := i / 5
    Nat.xor (B.getD i 0)
      (Nat.land (Nat.xor (B.getD ((x + 1) % 5 + 5 * y) 0) mask64)
        (B.getD ((x + 2) % 5 + 5 * y) 0)))
  A2.set 0 (Nat.xor (A2.getD 0 0) rc)

def keccakF (A : List Nat) : List Nat :=
  keccakRC.foldl keccakRound A

/-- Keccak `pad10*1` with domain byte 0x01, rate 136 bytes. -/
def keccakPad (m : List Nat) : List Nat :=
  let j := 136 - m.length % 136
  if j = 1 then m ++ [0x81] else m ++ 0x01 :: List.replicate (j - 2) 0 ++ [0x80]

def keccakAbsorbBlock (A : List Nat) (block : List Nat) : List Nat :=
  let lanes := (chunks 8 block).map leWord
  keccakF ((List.range 25).map (fun i =>
    if i < 17 then A.getD i 0 ^^^ lanes.getD i 0 else A.getD i 0))

def keccak256 (m : List Nat) : List Nat :=
  let A := (chunks 136 (keccakPad m)).foldl keccakAbsorbBlock (List.replicate 25 0)
  ((A.take 4).map le64Bytes).flatten

/-! ## Address derivation (src/wallet/mod.rs, `TxSigner::account_id`)

A secp256k1 public key is a curve point; the private-key → point map is the
external `k256` library, so signers are indexed by the point coordinates
here ("the same private key" yields the same point).  The SEC1 encodings are
`0x04 ‖ X ‖ Y` (uncompressed, 65 bytes) and `(0x02 + (Y mod 2)) ‖ X`
(compressed, 33 bytes). -/

/-- `self.key.public_key().to_encoded_point(false)`: uncompressed SEC1 bytes. -/
def uncompressedPubkeyBytes (x y : Nat) : List Nat :=
  4 :: (beBytes32 x ++ beBytes32 y)

/-- `PublicKey::to_bytes` / SEC1 compressed encoding. -/
def compressedPubkeyBytes (x y : Nat) : List Nat :=
  (if y % 2 = 0 then 2 else 3) :: beBytes32 x

/-- `cosmrs::crypto::PublicKey::account_id`: the standard Cosmos address,
RIPEMD-160 of SHA-256 of the compressed public key, under the given HRP. -/
def cosmosAccountId (x y : Nat) (hrp : String) : AccountId :=
  { hrp := hrp, addrBytes := ripemd160 (sha256 (compressedPubkeyBytes x y)) }

/-- The Ethermint branch of `TxSigner::account_id` (src/wallet/mod.rs lines
127-141): Keccak-256 of the uncompressed public key without its leading
format byte, low 20 bytes (`hashed_bytes[12..32]`), under the given HRP. -/
def ethermintAccountId (x y : Nat) (hrp : String) : AccountId :=
  let pubkey_bytes := uncompressedPubkeyBytes x y
  let hashed_bytes := keccak256 (pubkey_bytes.drop 1)
  { hrp := hrp, addrBytes := (hashed_bytes.drop 12).take 20 }

/-- A signer as seen by address derivation: public key point plus scheme. -/
structure SignerKey where
  pubX : Nat
  pubY : Nat
  key_type : WalletKeyType
  deriving DecidableEq, Repr

/-- `TxSigner::account_id` (src/wallet/mod.rs lines 124-143): dispatch on
the wallet key scheme. -/
def SignerKey.account_id (s : SignerKey) (hrp : String) : AccountId :=
  match s.key_type with
  | WalletKeyType.secp256k1 => cosmosAccountId s.pubX s.pubY hrp
  | WalletKeyType.ethermintSecp256k1 _ => ethermintAccountId s.pubX s.pubY hrp

/-- The secp256k1 generator point (the public key of private key 1). -/
def secpGenX : Nat := 0x79be667ef9dcbbac55a06295ce870b07029bfcdb2dce28d959f2815b16f81798

def secpGenY : Nat := 0x483ada7726a3c4655da4fbfc0e1108a8fd17b448a68554199c47d08ffb10d4b8

/-! ## Transaction signing (src/wallet/mod.rs, `sign_transaction`)

The ECDSA primitives of the `k256` crate are oracle parameters with their
library types: a recoverable signature is an `r ‖ s` pair of exactly 64
bytes plus a one-byte recovery id.  `sign_recoverable` digests the full
message itself; `sign_prehash_recoverable` signs a caller-supplied digest.
The protobuf serialization of the sign document is likewise an oracle. -/

/-- `cosmrs::tx::Body` as far as signing observes it. -/
structure TxBody where
  memo : String
  msgs : List Msg
  deriving DecidableEq, Repr

/-- The auth info derived from the signer info and fee. -/
structure AuthInfo where
  fee : Fee
  sequence : Nat
  key_type : WalletKeyType
  deriving DecidableEq, Repr

/-- `TxSigner` (src/wallet/mod.rs): key material (abstract), scheme, and the
account number / sequence pair it signs with. -/
structure TxSigner where
  key : Nat
  key_type : WalletKeyType
  account_number : Nat
  sequence : Nat
  deriving DecidableEq, Repr

/-- A signed `Tx`. -/
structure SignedTx where
  body : TxBody
  auth_info : AuthInfo
  signatures : List (List Nat)
  deriving DecidableEq, Repr

/-- The external signing primitives (`k256` / `prost`), typed with the
library contracts: 64-byte signatures, one recovery byte. -/
structure SignPrims where
  encodeSignDoc : TxBody → AuthInfo → String → Nat → Except Err (List Nat)
  signRecoverable : Nat → List Nat → Except Err ({ l : List Nat // l.length = 64 } × Nat)
  signPrehashRecoverable : Nat → List Nat → Except Err ({ l : List Nat // l.length = 64 } × Nat)

/-- `sign_transaction` (src/wallet/mod.rs lines 282-327): build the sign
document from (body, auth info, chain id, account number); for `Secp256k1`
sign the document bytes directly and use the 64 signature bytes; for
`EthermintSecp256k1` Keccak-256-hash the document bytes, sign the 32-byte
hash, and append the recovery id byte to the 64 signature bytes. -/
def sign_transaction (prims : SignPrims) (chain_info : ChainInfo) (signer : TxSigner)
    (fee : Fee) (body : TxBody) : Except Err SignedTx :=
  let auth_info : AuthInfo :=
    { fee := fee, sequence := signer.sequence, key_type := signer.key_type }
  match prims.encodeSignDoc body auth_info chain_info.id signer.account_number with
  | Except.error e => Except.error e
  | Except.ok sign_doc_bytes =>
    match (match signer.key_type with
      | WalletKeyType.secp256k1 =>
        (match prims.signRecoverable signer.key sign_doc_bytes with
          | Except.error e => Except.error e
          | Except.ok (sig, _) => Except.ok sig.val)
      | WalletKeyType.ethermintSecp256k1 _ =>
        let hash := keccak256 sign_doc_bytes
        (match prims.signPrehashRecoverable signer.key hash with
          | Except.error e => Except.error e
          | Except.ok (sig, recovery_id) => Except.ok (sig.val ++ [recovery_id]))) with
    | Except.error e => Except.error e
    | Except.ok signature =>
      Except.ok { body := body, auth_info := auth_info, signatures := [signature] }

/-! ## Derived notions used by the statements -/

/-- Commission coins with their parsed amounts: `some` iff every amount
string parses as a `BigUint`. -/
def parsedCoins (coins : List DecCoin) : Option (List (String × Nat)) :=
  coins.mapM (fun c => (parseBigUint c.amount).map (fun a => (c.denom, a)))

/-- Total parsed amount carried by the coins of one denomination. -/
def sumDenom (coins : List (String × Nat)) (d : String) : Nat :=
  ((coins.filter (fun p => p.1 = d)).map Prod.snd).sum

/-- Fold a list of (denom, amount) pairs into a ledger. -/
def ledgerAddAll (m : List (String × Nat)) (coins : List (String × Nat)) : List (String × Nat) :=
  coins.foldl (fun acc p => ledgerAdd acc p.1 p.2) m

end CosmosWithdrawer

namespace CosmosWithdrawer

/-! ## Helper lemmas -/

theorem bind_ok_eq {α β : Type} (x : α) (g : α → Except Err β) :
    (Except.ok x >>= g) = g x := rfl

theorem bind_error_eq {α β : Type} (e : Err) (g : α → Except Err β) :
    ((Except.error e : Except Err α) >>= g) = Except.error e := rfl

theorem foldlM_ok_invariant {α σ : Type} (f : σ → α → Except Err σ) (P : σ → Prop)
    (hf : ∀ s a s', P s → f s a = Except.ok s' → P s')
    (l : List α) : ∀ s s', P s → l.foldlM f s = Except.ok s' → P s' := by
  induction l with
  | nil =>
    intro s s' hP h
    simp only [List.foldlM_nil] at h
    cases h
    exact hP
  | cons a l ih =>
    intro s s' hP h
    rw [List.foldlM_cons] at h
    cases hfa : f s a with
    | error e =>
      rw [hfa, bind_error_eq] at h
      cases h
    | ok s₁ =>
      rw [hfa, bind_ok_eq] at h
      exact ih s₁ s' (hf s a s₁ hP hfa) h

theorem mem_hashSetInsert_self (l : List String) (x : String) : x ∈ hashSetInsert l x := by
  unfold hashSetInsert
  split
  · assumption
  · simp

theorem hashSetInsert_nodup (l : List String) (x : String) (h : l.Nodup) :
    (hashSetInsert l x).Nodup := by
  unfold hashSetInsert
  split
  · exact h
  · simp_all [List.nodup_append]

theorem lookupDenom_ledgerAdd_self (m : List (String × Nat)) (d : String) (a : Nat) :
    lookupDenom (ledgerAdd m d a) d = some ((lookupDenom m d).getD 0 + a) := by
  induction m with
  | nil => simp [ledgerAdd, lookupDenom]
  | cons p rest ih =>
    obtain ⟨k, v⟩ := p
    by_cases hk : k = d
    · subst hk
      simp [ledgerAdd, lookupDenom]
    · simp [ledgerAdd, lookupDenom, hk, ih]

theorem lookupDenom_ledgerAdd_other (m : List (String × Nat)) (d d' : String) (a : Nat)
    (h : d' ≠ d) : lookupDenom (ledgerAdd m d a) d' = lookupDenom m d' := by
  induction m with
  | nil => simp [ledgerAdd, lookupDenom, h, Ne.symm h]
  | cons p rest ih =>
    obtain ⟨k, v⟩ := p
    by_cases hk : k = d
    · subst hk
      simp [ledgerAdd, lookupDenom, Ne.symm h]
    · by_cases hk' : k = d'
      · subst hk'
        simp [ledgerAdd, lookupDenom, hk]
      · simp [ledgerAdd, lookupDenom, hk, hk', ih]

theorem processCoin_ok_no_threshold (thr : String → Option Nat) (v : String)
    (s : DecisionState) (c : DecCoin) (a : Nat)
    (hp : parseBigUint c.amount = some a) (ht : thr c.denom = none) :
    processCoin thr v s c = Except.ok s := by
  simp [processCoin, hp, ht]

theorem processCoin_ok_below (thr : String → Option Nat) (v : String)
    (s : DecisionState) (c : DecCoin) (a t : Nat)
    (hp : parseBigUint c.amount = some a) (ht : thr c.denom = some t) (hlt : a < t) :
    processCoin thr v s c = Except.ok s := by
  simp [processCoin, hp, ht, hlt]

theorem processCoin_ok_above (thr : String → Option Nat) (v : String)
    (s : DecisionState) (c : DecCoin) (a t : Nat)
    (hp : parseBigUint c.amount = some a) (ht : thr c.denom = some t) (hge : t ≤ a) :
    processCoin thr v s c = Except.ok { s with
      withdraw_validators := hashSetInsert s.withdraw_validators v,
      collected_coins := ledgerAdd s.collected_coins c.denom a } := by
  simp [processCoin, hp, ht, Nat.not_lt.mpr hge]

/-- Every successful `processCoin` step either leaves the state unchanged or
marks the validator and adds the parsed amount to the ledger. -/
theorem processCoin_ok_cases (thr : String → Option Nat) (v : String)
    (s : DecisionState) (c : DecCoin) (s' : DecisionState)
    (h : processCoin thr v s c = Except.ok s') :
    s' = s ∨ ∃ a, parseBigUint c.amount = some a ∧
      s' = { s with
        withdraw_validators := hashSetInsert s.withdraw_validators v,
        collected_coins := ledgerAdd s.collected_coins c.denom a } := by
  unfold processCoin at h
  cases hp : parseBigUint c.amount with
  | none => rw [hp] at h; cases h
  | some a =>
    rw [hp] at h
    dsimp only at h
    cases ht : thr c.denom with
    | none =>
      rw [ht] at h
      cases h
      exact Or.inl rfl
    | some t =>
      rw [ht] at h
      dsimp only at h
      by_cases hlt : a < t
      · rw [if_pos hlt] at h
        cases h
        exact Or.inl rfl
      · rw [if_neg hlt] at h
        cases h
        exact Or.inr ⟨a, rfl, rfl⟩

theorem processCoin_preserves_self_valoper (thr : String → Option Nat) (v : String)
    (s : DecisionState) (c : DecCoin) (s' : DecisionState)
    (h : processCoin thr v s c = Except.ok s') :
    s'.withdraw_self_valoper = s.withdraw_self_valoper := by
  rcases processCoin_ok_cases thr v s c s' h with h' | ⟨a, _, h'⟩ <;> subst h' <;> rfl

theorem processCoin_preserves_nodup (thr : String → Option Nat) (v : String)
    (s : DecisionState) (c : DecCoin) (s' : DecisionState)
    (h : processCoin thr v s c = Except.ok s') (hn : s.withdraw_validators.Nodup) :
    s'.withdraw_validators.Nodup := by
  rcases processCoin_ok_cases thr v s c s' h with h' | ⟨a, _, h'⟩ <;> subst h'
  · exact hn
  · exact hashSetInsert_nodup _ _ hn

theorem commissionCoinStep_validators (st : DecisionState) (c : DecCoin) (st' : DecisionState)
    (h : commissionCoinStep st c = Except.ok st') :
    st'.withdraw_validators = st.withdraw_validators ∧
    st'.withdraw_self_valoper = st.withdraw_self_valoper := by
  unfold commissionCoinStep at h
  cases hp : parseBigUint c.amount with
  | none => rw [hp] at h; cases h
  | some a => rw [hp] at h; cases h; exact ⟨rfl, rfl⟩

theorem processCommission_ok_shape (commission : String → Option (List DecCoin))
    (s : DecisionState) (v : String) (s' : DecisionState)
    (h : processCommission commission s v = Except.ok s') :
    s'.withdraw_validators = s.withdraw_validators ∧
    (s'.withdraw_self_valoper = s.withdraw_self_valoper ∨ s'.withdraw_self_valoper = some v) := by
  unfold processCommission at h
  cases hc : commission v with
  | none => rw [hc] at h; cases h; exact ⟨rfl, Or.inl rfl⟩
  | some coins =>
    rw [hc] at h
    dsimp only at h
    cases hf : coins.foldlM commissionCoinStep s with
    | error e => rw [hf] at h; cases h
    | ok s₁ =>
      rw [hf] at h
      cases h
      refine ⟨?_, Or.inr rfl⟩
      exact foldlM_ok_invariant commissionCoinStep
        (fun st => st.withdraw_validators = s.withdraw_validators)
        (fun st c st' hP hstep => ((commissionCoinStep_validators st c st' hstep).1).trans hP)
        coins s s₁ rfl hf

theorem processEntry_preserves_nodup (toBytes : String → Option (List Nat))
    (dAddr : AccountId) (commission : String → Option (List DecCoin))
    (thr : String → Option Nat) (s : DecisionState) (entry : DelegationDelegatorReward)
    (s' : DecisionState) (h : processEntry toBytes dAddr commission thr s entry = Except.ok s')
    (hn : s.withdraw_validators.Nodup) : s'.withdraw_validators.Nodup := by
  unfold processEntry at h
  cases hb : toBytes entry.validator_address with
  | none => rw [hb] at h; cases h
  | some vb =>
    rw [hb] at h
    dsimp only at h
    by_cases hd : vb = dAddr.addrBytes
    · rw [if_pos hd] at h
      cases hc : processCommission commission s entry.validator_address with
      | error e => rw [hc] at h; cases h
      | ok s₁ =>
        rw [hc] at h
        have h₁ : s₁.withdraw_validators.Nodup :=
          (processCommission_ok_shape commission s entry.validator_address s₁ hc).1 ▸ hn
        exact foldlM_ok_invariant (processCoin thr entry.validator_address)
          (fun st => st.withdraw_validators.Nodup)
          (fun st c st' hP hstep =>
            processCoin_preserves_nodup thr entry.validator_address st c st' hstep hP)
          entry.reward s₁ s' h₁ h
    · rw [if_neg hd] at h
      exact foldlM_ok_invariant (processCoin thr entry.validator_address)
        (fun st => st.withdraw_validators.Nodup)
        (fun st c st' hP hstep =>
          processCoin_preserves_nodup thr entry.validator_address st c st' hstep hP)
        entry.reward s s' hn h

theorem decisionPass_nodup (toBytes : String → Option (List Nat)) (dAddr : AccountId)
    (commission : String → Option (List DecCoin)) (thr : String → Option Nat)
    (rewards : List DelegationDelegatorReward) (out : DecisionState)
    (h : decisionPass toBytes dAddr commission thr rewards = Except.ok out) :
    out.withdraw_validators.Nodup := by
  unfold decisionPass at h
  exact foldlM_ok_invariant (processEntry toBytes dAddr commission thr)
    (fun st => st.withdraw_validators.Nodup)
    (fun st e st' hP hstep =>
      processEntry_preserves_nodup toBytes dAddr commission thr st e st' hstep hP)
    rewards initialDecision out List.nodup_nil h

theorem ledgerAddAll_lookup (ps : List (String × Nat)) :
    ∀ (m : List (String × Nat)) (d : String),
    (lookupDenom (ledgerAddAll m ps) d).getD 0 =
      (lookupDenom m d).getD 0 + sumDenom ps d := by
  induction ps with
  | nil =>
    intro m d
    simp [ledgerAddAll, sumDenom]
  | cons p rest ih =>
    intro m d
    obtain ⟨k, a⟩ := p
    have hstep : ledgerAddAll m ((k, a) :: rest) = ledgerAddAll (ledgerAdd m k a) rest := rfl
    rw [hstep, ih]
    by_cases hk : k = d
    · subst hk
      rw [lookupDenom_ledgerAdd_self]
      simp [sumDenom]
      omega
    · rw [lookupDenom_ledgerAdd_other m k d a (Ne.symm hk)]
      simp [sumDenom, hk]

theorem commissionFold_eq (coins : List DecCoin) :
    ∀ (ps : List (String × Nat)) (st : DecisionState),
    parsedCoins coins = some ps →
    coins.foldlM commissionCoinStep st =
      Except.ok { st with collected_coins := ledgerAddAll st.collected_coins ps } := by
  induction coins with
  | nil =>
    intro ps st h
    have h' : some ([] : List (String × Nat)) = some ps := h
    cases h'
    rfl
  | cons c rest ih =>
    intro ps st h
    unfold parsedCoins at h
    rw [List.mapM_cons] at h
    cases hp : parseBigUint c.amount with
    | none => rw [hp] at h; simp at h
    | some a =>
      rw [hp] at h
      simp only [Option.map_some, Option.bind_eq_bind, Option.some_bind] at h
      cases hrest : rest.mapM (fun c => (parseBigUint c.amount).map (fun a => (c.denom, a))) with
      | none => rw [hrest] at h; simp at h
      | some ps' =>
        rw [hrest] at h
        simp at h
        subst h
        rw [List.foldlM_cons]
        have hstep : commissionCoinStep st c =
            Except.ok { st with collected_coins := ledgerAdd st.collected_coins c.denom a } := by
          simp [commissionCoinStep, hp]
        rw [hstep, bind_ok_eq]
        exact ih ps' _ hrest

/-- C1: for every reward coin in the decision pass: a coin whose denomination
has no configured threshold is skipped without marking the validator; a coin
whose parsed amount is below the configured threshold is skipped; a coin
meeting or exceeding the threshold marks the validator for reward withdrawal
(the withdrawal set stays duplicate-free, so each validator appears at most
once) and adds the parsed amount to the per-denomination ledger. -/
theorem claim_C1 (thr : String → Option Nat) (v : String) (s : DecisionState)
    (c : DecCoin) (a : Nat) (hp : parseBigUint c.amount = some a) :
    (thr c.denom = none → processCoin thr v s c = Except.ok s) ∧
    (∀ t, thr c.denom = some t → a < t → processCoin thr v s c = Except.ok s) ∧
    (∀ t, thr c.denom = some t → t ≤ a →
      processCoin thr v s c = Except.ok { s with
        withdraw_validators := hashSetInsert s.withdraw_validators v,
        collected_coins := ledgerAdd s.collected_coins c.denom a } ∧
      v ∈ hashSetInsert s.withdraw_validators v ∧
      lookupDenom (ledgerAdd s.collected_coins c.denom a) c.denom
        = some ((lookupDenom s.collected_coins c.denom).getD 0 + a)) ∧
    (∀ toBytes dAddr commission rewards out,
      decisionPass toBytes dAddr commission thr rewards = Except.ok out →
      out.withdraw_validators.Nodup) := by
  refine ⟨?_, ?_, ?_, ?_⟩
  · intro ht
    exact processCoin_ok_no_threshold thr v s c a hp ht
  · intro t ht hlt
    exact processCoin_ok_below thr v s c a t hp ht hlt
  · intro t ht hge
    exact ⟨processCoin_ok_above thr v s c a t hp ht hge,
      mem_hashSetInsert_self _ _,
      lookupDenom_ledgerAdd_self _ _ _⟩
  · intro toBytes dAddr commission rewards out h
    exact decisionPass_nodup toBytes dAddr commission thr rewards out h

/-- Closed instance of C1: with threshold `1000uatom`, a `1000uatom` reward
coin marks the validator and books the amount. -/
theorem claim_C1_witness :
    parseBigUint "1000" = some 1000 ∧
    processCoin (lookupDenom (collectThresholds [{ denom := "uatom", amount := 1000 }]))
      "cosmosvaloper1v" initialDecision { denom := "uatom", amount := "1000" } =
      Except.ok { withdraw_self_valoper := none,
                  withdraw_validators := ["cosmosvaloper1v"],
                  collected_coins := [("uatom", 1000)] } := by
  have h := claim_C1 (lookupDenom (collectThresholds [{ denom := "uatom", amount := 1000 }]))
    "cosmosvaloper1v" initialDecision { denom := "uatom", amount := "1000" } 1000 rfl
  exact ⟨rfl, ((h.2.2.1 1000 rfl (by decide)).1).trans (by rfl)⟩

/-- C2: for a validator entry whose operator address bytes equal the
delegator's address bytes, the standalone commission query runs; when it
returns coins, every commission coin's parsed amount is added to the
accumulated ledger and the entry is recorded as the pending self-commission
withdrawal — for every threshold configuration, since the commission branch
never consults the thresholds. -/
theorem claim_C2 (toBytes : String → Option (List Nat)) (dAddr : AccountId)
    (commission : String → Option (List DecCoin)) (thr : String → Option Nat)
    (s : DecisionState) (entry : DelegationDelegatorReward)
    (coins : List DecCoin) (ps : List (String × Nat))
    (hb : toBytes entry.validator_address = some dAddr.addrBytes)
    (hc : commission entry.validator_address = some coins)
    (hp : parsedCoins coins = some ps) :
    processCommission commission s entry.validator_address = Except.ok
      { withdraw_self_valoper := some entry.validator_address,
        withdraw_validators := s.withdraw_validators,
        collected_coins := ledgerAddAll s.collected_coins ps } ∧
    processEntry toBytes dAddr commission thr s entry =
      entry.reward.foldlM (processCoin thr entry.validator_address)
        { withdraw_self_valoper := some entry.validator_address,
          withdraw_validators := s.withdraw_validators,
          collected_coins := ledgerAddAll s.collected_coins ps } ∧
    (∀ d, (lookupDenom (ledgerAddAll s.collected_coins ps) d).getD 0
        = (lookupDenom s.collected_coins d).getD 0 + sumDenom ps d) ∧
    (∀ out, processEntry toBytes dAddr commission thr s entry = Except.ok out →
      out.withdraw_self_valoper = some entry.validator_address) := by
  have hcomm : processCommission commission s entry.validator_address = Except.ok
      { withdraw_self_valoper := some entry.validator_address,
        withdraw_validators := s.withdraw_validators,
        collected_coins := ledgerAddAll s.collected_coins ps } := by
    unfold processCommission
    rw [hc]
    dsimp only
    rw [commissionFold_eq coins ps s hp]
  have hentry : processEntry toBytes dAddr commission thr s entry =
      entry.reward.foldlM (processCoin thr entry.validator_address)
        { withdraw_self_valoper := some entry.validator_address,
          withdraw_validators := s.withdraw_validators,
          collected_coins := ledgerAddAll s.collected_coins ps } := by
    unfold processEntry
    rw [hb]
    dsimp only
    rw [if_pos rfl, hcomm]
  refine ⟨hcomm, hentry, fun d => ledgerAddAll_lookup ps s.collected_coins d, ?_⟩
  intro out hout
  rw [hentry] at hout
  exact foldlM_ok_invariant (processCoin thr entry.validator_address)
    (fun st => st.withdraw_self_valoper = some entry.validator_address)
    (fun st c st' hP hstep =>
      (processCoin_preserves_self_valoper thr entry.validator_address st c st' hstep).trans hP)
    entry.reward _ out rfl hout

/-- Closed instance of C2: a self-delegating validator with standalone
commission `500uatom` is marked for commission withdrawal and the amount is
booked, with an empty threshold configuration. -/
theorem claim_C2_witness :
    processCommission
      (fun v => if v = "cosmosvaloper1self" then some [{ denom := "uatom", amount := "500" }] else none)
      initialDecision "cosmosvaloper1self" = Except.ok
      { withdraw_self_valoper := some "cosmosvaloper1self",
        withdraw_validators := [],
        collected_coins := [("uatom", 500)] } ∧
    (lookupDenom (ledgerAddAll ([] : List (String × Nat)) [("uatom", 500)]) "uatom").getD 0 = 500 := by
  have h := claim_C2 (fun _ => some [9]) { hrp := "cosmos", addrBytes := [9] }
    (fun v => if v = "cosmosvaloper1self" then some [{ denom := "uatom", amount := "500" }] else none)
    (fun _ => none) initialDecision
    { validator_address := "cosmosvaloper1self", reward := [] }
    [{ denom := "uatom", amount := "500" }] [("uatom", 500)]
    rfl (by simp) rfl
  exact ⟨h.1.trans (by rfl), (h.2.2.1 "uatom").trans (by rfl)⟩

/-- C3: when the decision pass marks no validator and finds no
self-commission, `withdraw` succeeds as a no-op: no messages, no signing, no
broadcast. -/
theorem claim_C3 (env : WithdrawEnv) (account : AccountArgs) (targs : TransactionArgs)
    (thresholds : List StrCoin) (g : GasInfo) (r : ResolvedAccounts) (s : DecisionState)
    (hg : determine_gas env.knownPrices env.chain_info targs = Except.ok g)
    (hr : get_account_details account env.chain_info env.delegatorLookup env.controllerLookup
      = Except.ok r)
    (hs : decisionPass env.toBytes account.delegator_address env.commission
      (lookupDenom (collectThresholds thresholds)) env.rewards = Except.ok s)
    (h1 : s.withdraw_validators = []) (h2 : s.withdraw_self_valoper = none) :
    withdraw env account targs thresholds = Except.ok WithdrawOutcome.nothingToWithdraw ∧
    WithdrawOutcome.nothingToWithdraw.messages = [] ∧
    WithdrawOutcome.nothingToWithdraw.performedSigning = false ∧
    WithdrawOutcome.nothingToWithdraw.performedBroadcast = false := by
  refine ⟨?_, rfl, rfl, rfl⟩
  unfold withdraw
  rw [hg, hr, hs]
  dsimp only
  simp [h1, h2]

/-- Closed instance of C3: no rewards at all means a successful no-op. -/
theorem claim_C3_witness :
    withdraw
      { chain_info := { id := "test-1", chain_supports_setting_withdrawal_address := false,
                        bech32 := { accountHrp := "cosmos", valoperHrp := "cosmosvaloper" } },
        knownPrices := [("test-1", ("uatom", (1 : Rat)))],
        delegatorLookup := some ({ address := "d", pub_key := none, account_number := 1, sequence := 0 },
          some WalletKeyType.secp256k1),
        controllerLookup := some ({ address := "c", pub_key := none, account_number := 2, sequence := 0 },
          none),
        rewards := [],
        commission := fun _ => none,
        toBytes := fun _ => some [],
        signerSetup := Except.ok (),
        simulatedFee := Except.ok { amount := [], gas_limit := 0 },
        broadcastAccepted := Except.ok () }
      { delegator_address := { hrp := "cosmos", addrBytes := [1] },
        delegator_address_type := none,
        controller_address := { hrp := "cosmos", addrBytes := [2] },
        controller_address_type := none,
        reward_address := none }
      { memo := "", gas := GasOption.auto, gas_adjustment := 1, gas_prices := [],
        sequence := none, account_number := none, generate_only := false, dry_run := false }
      [] = Except.ok WithdrawOutcome.nothingToWithdraw :=
  (claim_C3
    { chain_info := { id := "test-1", chain_supports_setting_withdrawal_address := false,
                      bech32 := { accountHrp := "cosmos", valoperHrp := "cosmosvaloper" } },
      knownPrices := [("test-1", ("uatom", (1 : Rat)))],
      delegatorLookup := some ({ address := "d", pub_key := none, account_number := 1, sequence := 0 },
        some WalletKeyType.secp256k1),
      controllerLookup := some ({ address := "c", pub_key := none, account_number := 2, sequence := 0 },
        none),
      rewards := [],
      commission := fun _ => none,
      toBytes := fun _ => some [],
      signerSetup := Except.ok (),
      simulatedFee := Except.ok { amount := [], gas_limit := 0 },
      broadcastAccepted := Except.ok () }
    { delegator_address := { hrp := "cosmos", addrBytes := [1] },
      delegator_address_type := none,
      controller_address := { hrp := "cosmos", addrBytes := [2] },
      controller_address_type := none,
      reward_address := none }
    { memo := "", gas := GasOption.auto, gas_adjustment := 1, gas_prices := [],
      sequence := none, account_number := none, generate_only := false, dry_run := false }
    []
    { price := 1, adjustment := 1, denom := "uatom", limit := none }
    { delegator_account := { address := "d", pub_key := none, account_number := 1, sequence := 0 },
      delegator_key_type := WalletKeyType.secp256k1,
      controller_account := { address := "c", pub_key := none, account_number := 2, sequence := 0 },
      controller_key_type := WalletKeyType.secp256k1 }
    initialDecision
    rfl rfl rfl rfl rfl).1

/-- C8: gas selection priority: an explicitly supplied gas price and denom
wins; else the static table price for the chain id; else the
unknown-chain-gas-config failure — and in the failure case `withdraw` fails
with that error for every simulation oracle, i.e. before any simulation. -/
theorem claim_C8 (known : List (String × String × Rat)) (chain : ChainInfo) :
    (∀ (targs : TransactionArgs) sup rest, targs.gas_prices = sup :: rest →
      determine_gas known chain targs = Except.ok
        { price := sup.amount, adjustment := targs.gas_adjustment, denom := sup.denom,
          limit := (match targs.gas with
            | GasOption.auto => none
            | GasOption.amount v => some v) }) ∧
    (∀ (targs : TransactionArgs) d p, targs.gas_prices = [] →
      lookupChainGas known chain.id = some (d, p) →
      determine_gas known chain targs = Except.ok
        { price := p, adjustment := targs.gas_adjustment, denom := d,
          limit := (match targs.gas with
            | GasOption.auto => none
            | GasOption.amount v => some v) }) ∧
    (∀ (targs : TransactionArgs), targs.gas_prices = [] →
      lookupChainGas known chain.id = none →
      determine_gas known chain targs = Except.error (Err.unknownChainGasConfig chain.id)) ∧
    (∀ (env : WithdrawEnv) (account : AccountArgs) (targs : TransactionArgs)
        (thresholds : List StrCoin) (fee : Except Err Fee),
      env.chain_info = chain → env.knownPrices = known →
      targs.gas = GasOption.auto → targs.gas_prices = [] →
      lookupChainGas known chain.id = none →
      withdraw { env with simulatedFee := fee } account targs thresholds =
        Except.error (Err.unknownChainGasConfig chain.id)) := by
  have herr : ∀ (targs : TransactionArgs), targs.gas_prices = [] →
      lookupChainGas known chain.id = none →
      determine_gas known chain targs = Except.error (Err.unknownChainGasConfig chain.id) := by
    intro targs hsup hknown
    unfold determine_gas
    rw [hsup, hknown]
    rfl
  refine ⟨?_, ?_, herr, ?_⟩
  · intro targs sup rest hsup
    unfold determine_gas
    rw [hsup]
    rfl
  · intro targs d p hsup hknown
    unfold determine_gas
    rw [hsup, hknown]
    rfl
  · intro env account targs thresholds fee h1 h2 _h3 h4 h5
    unfold withdraw
    dsimp only
    rw [h1, h2, herr targs h4 h5]

/-- Closed instance of C8: auto gas, no supplied price, unknown chain id —
the unknown-chain error is returned for any simulation result. -/
theorem claim_C8_witness :
    determine_gas []
      { id := "nochain-1", chain_supports_setting_withdrawal_address := false,
        bech32 := { accountHrp := "a", valoperHrp := "b" } }
      { memo := "", gas := GasOption.auto, gas_adjustment := 1, gas_prices := [],
        sequence := none, account_number := none, generate_only := false, dry_run := false } =
      Except.error (Err.unknownChainGasConfig "nochain-1") :=
  (claim_C8 []
    { id := "nochain-1", chain_supports_setting_withdrawal_address := false,
      bech32 := { accountHrp := "a", valoperHrp := "b" } }).2.2.1
    { memo := "", gas := GasOption.auto, gas_adjustment := 1, gas_prices := [],
      sequence := none, account_number := none, generate_only := false, dry_run := false }
    rfl rfl

theorem pollFrom_lookups_le (lookup : Nat → Option FoundTx) :
    ∀ (n k : Nat), ((pollFrom lookup k n).2).lookups ≤ n := by
  intro n
  induction n with
  | zero => intro k; simp [pollFrom]
  | succ r ih =>
    intro k
    unfold pollFrom
    cases hl : lookup k with
    | some tx => simp
    | none =>
      dsimp only
      have := ih (k + 1)
      omega

theorem pollFrom_success (lookup : Nat → Option FoundTx) :
    ∀ (n i k : Nat) (tx : FoundTx), i < n → lookup (k + i) = some tx →
    (∀ j, j < i → lookup (k + j) = none) →
    pollFrom lookup k n =
      (Except.ok tx, { lookups := i + 1, sleeps := List.replicate i 2500 }) := by
  intro n
  induction n with
  | zero => intro i k tx hi; omega
  | succ r ih =>
    intro i k tx hi hsome hnone
    cases i with
    | zero =>
      unfold pollFrom
      rw [show lookup k = some tx from by simpa using hsome]
      rfl
    | succ i' =>
      have hk : lookup k = none := by simpa using hnone 0 (by omega)
      unfold pollFrom
      rw [hk]
      dsimp only
      rw [ih i' (k + 1) tx (by omega)
        (by rw [show k + 1 + i' = k + (i' + 1) from by omega]; exact hsome)
        (fun j hj => by
          rw [show k + 1 + j = k + (j + 1) from by omega]
          exact hnone (j + 1) (by omega))]
      rfl

theorem pollFrom_exhaust (lookup : Nat → Option FoundTx) :
    ∀ (n k : Nat), (∀ i, i < n → lookup (k + i) = none) →
    pollFrom lookup k n =
      (Except.error Err.confirmationTimeout, { lookups := n, sleeps := List.replicate n 2500 }) := by
  intro n
  induction n with
  | zero => intro k _; rfl
  | succ r ih =>
    intro k hnone
    have hk : lookup k = none := by simpa using hnone 0 (by omega)
    unfold pollFrom
    rw [hk]
    dsimp only
    rw [ih (k + 1) (fun i hi => by
      rw [show k + 1 + i = k + (i + 1) from by omega]
      exact hnone (i + 1) (by omega))]
    rfl

/-- C9: a non-zero broadcast response code is a fatal rejection with no
retry; after an accepted broadcast, the confirmation poll looks the
transaction up at most 5 times with a fixed 2500 ms sleep after each failed
lookup, returns the transaction at the first successful lookup, and after 5
failed lookups returns the confirmation-timeout error, which is distinct
from the broadcast-rejection error. -/
theorem claim_C9 (lookup : Nat → Option FoundTx) :
    ((poll_tx lookup).2).lookups ≤ 5 ∧
    (∀ i tx, i < 5 → lookup i = some tx → (∀ j, j < i → lookup j = none) →
      poll_tx lookup = (Except.ok tx, { lookups := i + 1, sleeps := List.replicate i 2500 })) ∧
    ((∀ i, i < 5 → lookup i = none) →
      poll_tx lookup =
        (Except.error Err.confirmationTimeout, { lookups := 5, sleeps := List.replicate 5 2500 })) ∧
    Err.confirmationTimeout ≠ Err.broadcastRejected ∧
    (∀ r : BroadcastResponse, r.code ≠ 0 → print_tx_result r = Except.error Err.broadcastRejected) ∧
    (∀ r : BroadcastResponse, r.code = 0 → print_tx_result r = Except.ok ()) := by
  refine ⟨pollFrom_lookups_le lookup 5 0, ?_, ?_, by decide, ?_, ?_⟩
  · intro i tx hi hsome hnone
    exact pollFrom_success lookup 5 i 0 tx hi (by simpa using hsome)
      (fun j hj => by simpa using hnone j hj)
  · intro hnone
    exact pollFrom_exhaust lookup 5 0 (fun i hi => by simpa using hnone i hi)
  · intro r hr
    simp [print_tx_result, hr]
  · intro r hr
    simp [print_tx_result, hr]

/-- Closed instance of C9: a lookup that first succeeds on the third attempt
returns the transaction after two sleeps and three lookups; an always-failing
lookup exhausts five attempts and times out. -/
theorem claim_C9_witness :
    poll_tx (fun i => if i = 2 then some { hash := "ABCD" } else none) =
      (Except.ok { hash := "ABCD" }, { lookups := 3, sleeps := [2500, 2500] }) ∧
    poll_tx (fun _ => none) =
      (Except.error Err.confirmationTimeout,
        { lookups := 5, sleeps := [2500, 2500, 2500, 2500, 2500] }) := by
  constructor
  · exact ((claim_C9 (fun i => if i = 2 then some { hash := "ABCD" } else none)).2.1
      2 { hash := "ABCD" } (by decide) (by decide) (by decide)).trans (by rfl)
  · exact ((claim_C9 (fun _ => none)).2.2.1 (fun i _ => rfl)).trans (by rfl)

/-- C6: account resolution returns `None` for an uninitialized account;
otherwise it dispatches on the reported type URL — a base account is used
as-is, continuous- and periodic-vesting accounts are unwrapped through their
base vesting account to the embedded base account, Ethermint- and
Injective-style accounts yield their embedded base account, and any other
type URL fails with the unsupported-account-type error carrying that URL. -/
theorem claim_C6 :
    get_account_info none = Except.ok none ∧
    (∀ a, get_account_info
      (some { type_url := "/cosmos.auth.v1beta1.BaseAccount",
              payload := AccountPayload.base a }) = Except.ok (some a)) ∧
    (∀ ba, get_account_info (some
        { type_url := "/cosmos.vesting.v1beta1.ContinuousVestingAccount",
          payload := AccountPayload.continuousVesting (some { base_account := some ba }) }) =
      Except.ok (some ba)) ∧
    (∀ ba, get_account_info (some
        { type_url := "/cosmos.vesting.v1beta1.PeriodicVestingAccount",
          payload := AccountPayload.periodicVesting (some { base_account := some ba }) }) =
      Except.ok (some ba)) ∧
    (∀ ba ch, get_account_info
      (some { type_url := "/ethermint.types.v1.EthAccount",
              payload := AccountPayload.ethAccount ba ch }) = Except.ok (some ba)) ∧
    (∀ ba ch, get_account_info
      (some { type_url := "/injective.types.v1beta1.EthAccount",
              payload := AccountPayload.injectiveEthAccount ba ch }) = Except.ok (some ba)) ∧
    (∀ url payload, url ∉ ["/cosmos.auth.v1beta1.BaseAccount",
        "/cosmos.vesting.v1beta1.ContinuousVestingAccount",
        "/cosmos.vesting.v1beta1.PeriodicVestingAccount",
        "/ethermint.types.v1.EthAccount",
        "/injective.types.v1beta1.EthAccount"] →
      get_account_info (some { type_url := url, payload := payload }) =
        Except.error (Err.unsupportedAccountType url)) := by
  refine ⟨rfl, fun a => rfl, fun ba => rfl, fun ba => rfl, fun ba ch => rfl,
    fun ba ch => rfl, ?_⟩
  intro url payload h
  simp only [List.mem_cons, List.not_mem_nil, or_false, not_or] at h
  obtain ⟨h1, h2, h3, h4, h5⟩ := h
  unfold get_account_info
  dsimp only
  rw [if_neg h1, if_neg h2, if_neg h3, if_neg h4, if_neg h5]

/-- Closed instance of C6: an unrecognized module-account type URL fails with
the unsupported-account-type error carrying the URL. -/
theorem claim_C6_witness :
    get_account_info
      (some { type_url := "/cosmos.auth.v1beta1.ModuleAccount",
              payload := AccountPayload.undecodedBlob }) =
      Except.error (Err.unsupportedAccountType "/cosmos.auth.v1beta1.ModuleAccount") :=
  claim_C6.2.2.2.2.2.2 "/cosmos.auth.v1beta1.ModuleAccount" AccountPayload.undecodedBlob
    (by decide)

/-- C7 as stated is false on the code: here the delegator account's on-chain
public-key scheme is absent while a caller-supplied override
(`delegator_address_type`) is available, yet `get_account_details` still
fails with the missing-key error — the `wrap_err(..)?` on the on-chain
scheme fires before the override is consulted. -/
theorem claim_C7_counterexample :
    ({ delegator_address := { hrp := "cosmos", addrBytes := [1] },
       delegator_address_type := some WalletKeyType.secp256k1,
       controller_address := { hrp := "cosmos", addrBytes := [2] },
       controller_address_type := none,
       reward_address := none } : AccountArgs).delegator_address_type
      = some WalletKeyType.secp256k1 ∧
    get_account_details
      { delegator_address := { hrp := "cosmos", addrBytes := [1] },
        delegator_address_type := some WalletKeyType.secp256k1,
        controller_address := { hrp := "cosmos", addrBytes := [2] },
        controller_address_type := none,
        reward_address := none }
      { id := "test-1", chain_supports_setting_withdrawal_address := false,
        bech32 := { accountHrp := "cosmos", valoperHrp := "cosmosvaloper" } }
      (some ({ address := "d", pub_key := none, account_number := 1, sequence := 0 }, none))
      (some ({ address := "c", pub_key := none, account_number := 2, sequence := 0 },
        some WalletKeyType.secp256k1)) =
      Except.error Err.missingPubKeyInfo :=
  ⟨rfl, rfl⟩

/-- C7 (amended): the delegator's on-chain public-key scheme is required —
when present, a caller-supplied override takes precedence over it, and when
absent resolution fails with the missing-key error regardless of any
override; the controller's scheme falls back to the delegator's resolved
scheme when absent on chain, with the controller override applied on top. -/
theorem claim_C7 (args : AccountArgs) (chain : ChainInfo) (dAcc cAcc : BaseAccount)
    (dKeyChain cKeyChain : Option WalletKeyType)
    (hv : verify_accounts args chain = Except.ok ()) :
    (∀ k, dKeyChain = some k →
      get_account_details args chain (some (dAcc, dKeyChain)) (some (cAcc, cKeyChain)) =
        Except.ok {
          delegator_account := dAcc,
          delegator_key_type := override_type k args.delegator_address_type,
          controller_account := cAcc,
          controller_key_type := override_type
            (cKeyChain.getD (override_type k args.delegator_address_type))
            args.controller_address_type }) ∧
    (dKeyChain = none →
      get_account_details args chain (some (dAcc, dKeyChain)) (some (cAcc, cKeyChain)) =
        Except.error Err.missingPubKeyInfo) := by
  constructor
  · intro k hk
    subst hk
    unfold get_account_details
    rw [hv]
  · intro hk
    subst hk
    unfold get_account_details
    rw [hv]

/-- Closed instance of the amended C7: with the on-chain scheme present and
an override supplied, the override wins; the controller with no on-chain
scheme inherits that resolved scheme. -/
theorem claim_C7_witness :
    get_account_details
      { delegator_address := { hrp := "cosmos", addrBytes := [1] },
        delegator_address_type := some (WalletKeyType.ethermintSecp256k1 false),
        controller_address := { hrp := "cosmos", addrBytes := [2] },
        controller_address_type := none,
        reward_address := none }
      { id := "test-1", chain_supports_setting_withdrawal_address := false,
        bech32 := { accountHrp := "cosmos", valoperHrp := "cosmosvaloper" } }
      (some ({ address := "d", pub_key := none, account_number := 1, sequence := 0 },
        some WalletKeyType.secp256k1))
      (some ({ address := "c", pub_key := none, account_number := 2, sequence := 0 }, none)) =
      Except.ok {
        delegator_account := { address := "d", pub_key := none, account_number := 1, sequence := 0 },
        delegator_key_type := WalletKeyType.ethermintSecp256k1 false,
        controller_account := { address := "c", pub_key := none, account_number := 2, sequence := 0 },
        controller_key_type := WalletKeyType.ethermintSecp256k1 false } :=
  ((claim_C7
    { delegator_address := { hrp := "cosmos", addrBytes := [1] },
      delegator_address_type := some (WalletKeyType.ethermintSecp256k1 false),
      controller_address := { hrp := "cosmos", addrBytes := [2] },
      controller_address_type := none,
      reward_address := none }
    { id := "test-1", chain_supports_setting_withdrawal_address := false,
      bech32 := { accountHrp := "cosmos", valoperHrp := "cosmosvaloper" } }
    { address := "d", pub_key := none, account_number := 1, sequence := 0 }
    { address := "c", pub_key := none, account_number := 2, sequence := 0 }
    (some WalletKeyType.secp256k1) none rfl).1 WalletKeyType.secp256k1 rfl).trans (by rfl)

/-- C10: pre-lookup verification succeeds exactly when the delegator and
controller carry the chain's account HRP and differ from each other, and any
supplied reward address carries the chain's account HRP and differs from the
delegator; when verification fails, account resolution fails with the same
error for every pair of lookup results, i.e. before any account is looked
up. -/
theorem claim_C10 (args : AccountArgs) (chain : ChainInfo) :
    (verify_accounts args chain = Except.ok () ↔
      (args.delegator_address.hrp = chain.bech32.accountHrp ∧
       args.controller_address.hrp = chain.bech32.accountHrp ∧
       args.delegator_address ≠ args.controller_address ∧
       (∀ r, args.reward_address = some r →
         r.hrp = chain.bech32.accountHrp ∧ r ≠ args.delegator_address))) ∧
    (∀ e, verify_accounts args chain = Except.error e →
      ∀ dLookup cLookup, get_account_details args chain dLookup cLookup = Except.error e) := by
  constructor
  · unfold verify_accounts
    cases hrw : args.reward_address with
    | none => dsimp only; split_ifs <;> simp_all
    | some r => dsimp only; split_ifs <;> simp_all
  · intro e he dLookup cLookup
    unfold get_account_details
    rw [he]

/-- Closed instance of C10: equal delegator and controller addresses fail
verification, and resolution fails identically with no lookups consulted. -/
theorem claim_C10_witness :
    get_account_details
      { delegator_address := { hrp := "cosmos", addrBytes := [1] },
        delegator_address_type := none,
        controller_address := { hrp := "cosmos", addrBytes := [1] },
        controller_address_type := none,
        reward_address := none }
      { id := "test-1", chain_supports_setting_withdrawal_address := false,
        bech32 := { accountHrp := "cosmos", valoperHrp := "cosmosvaloper" } }
      none none =
      Except.error (Err.addressesEqual "delegator and controller") :=
  (claim_C10
    { delegator_address := { hrp := "cosmos", addrBytes := [1] },
      delegator_address_type := none,
      controller_address := { hrp := "cosmos", addrBytes := [1] },
      controller_address_type := none,
      reward_address := none }
    { id := "test-1", chain_supports_setting_withdrawal_address := false,
      bech32 := { accountHrp := "cosmos", valoperHrp := "cosmosvaloper" } }).2
    (Err.addressesEqual "delegator and controller") (by rfl) none none

theorem keccakRound_length (A : List Nat) (rc : Nat) : (keccakRound A rc).length = 25 := by
  simp [keccakRound]

theorem keccakF_length (A : List Nat) : (keccakF A).length = 25 := by
  unfold keccakF keccakRC
  simp only [List.foldl_cons, List.foldl_nil]
  exact keccakRound_length _ _

theorem keccakAbsorbBlock_length (A block : List Nat) :
    (keccakAbsorbBlock A block).length = 25 := by
  unfold keccakAbsorbBlock
  exact keccakF_length _

theorem foldl_absorb_length (blocks : List (List Nat)) :
    ∀ A : List Nat, A.length = 25 → (blocks.foldl keccakAbsorbBlock A).length = 25 := by
  induction blocks with
  | nil => intro A hA; exact hA
  | cons b rest ih =>
    intro A _
    rw [List.foldl_cons]
    exact ih _ (keccakAbsorbBlock_length A b)

theorem le64Bytes_length (x : Nat) : (le64Bytes x).length = 8 := by
  simp [le64Bytes]

theorem keccak256_length (m : List Nat) : (keccak256 m).length = 32 := by
  unfold keccak256
  dsimp only
  have hA : ((chunks 136 (keccakPad m)).foldl keccakAbsorbBlock (List.replicate 25 0)).length = 25 :=
    foldl_absorb_length _ _ (by simp)
  generalize hgen : (chunks 136 (keccakPad m)).foldl keccakAbsorbBlock (List.replicate 25 0) = A at hA ⊢
  rw [List.length_flatten, List.map_map]
  have hconst : (List.length ∘ le64Bytes) = fun _ : Nat => 8 :=
    funext fun z => le64Bytes_length z
  rw [hconst, List.map_const', List.sum_replicate, List.length_take, hA]
  rfl

/-- C4: `sign_transaction` with a `Secp256k1` key hands the sign-document
bytes directly to the recoverable signer, producing a 64-byte signature;
with an `EthermintSecp256k1` key it Keccak-256-hashes the document bytes,
signs the 32-byte hash, and appends the one recovery byte, producing a
65-byte signature; the resulting signature length is a function of the key
scheme alone. -/
theorem claim_C4 (prims : SignPrims) (chain_info : ChainInfo) (signer : TxSigner)
    (fee : Fee) (body : TxBody) (tx : SignedTx)
    (h : sign_transaction prims chain_info signer fee body = Except.ok tx) :
    tx.signatures.map List.length = [(match signer.key_type with
      | WalletKeyType.secp256k1 => 64
      | WalletKeyType.ethermintSecp256k1 _ => 65)] ∧
    ∃ docBytes, prims.encodeSignDoc body
        { fee := fee, sequence := signer.sequence, key_type := signer.key_type }
        chain_info.id signer.account_number = Except.ok docBytes ∧
      (signer.key_type = WalletKeyType.secp256k1 →
        ∃ sig rid, prims.signRecoverable signer.key docBytes = Except.ok (sig, rid) ∧
          tx.signatures = [sig.val]) ∧
      (∀ inj, signer.key_type = WalletKeyType.ethermintSecp256k1 inj →
        ∃ sig rid,
          prims.signPrehashRecoverable signer.key (keccak256 docBytes) = Except.ok (sig, rid) ∧
          (keccak256 docBytes).length = 32 ∧
          tx.signatures = [sig.val ++ [rid]]) := by
  obtain ⟨key, kt, an, seqn⟩ := signer
  unfold sign_transaction at h
  dsimp only at h
  cases henc : prims.encodeSignDoc body { fee := fee, sequence := seqn, key_type := kt }
      chain_info.id an with
  | error e => rw [henc] at h; cases h
  | ok docBytes =>
    rw [henc] at h
    dsimp only at h
    cases kt with
    | secp256k1 =>
      dsimp only at h
      cases hsig : prims.signRecoverable key docBytes with
      | error e => rw [hsig] at h; cases h
      | ok p =>
        obtain ⟨sig, rid⟩ := p
        rw [hsig] at h
        dsimp only at h
        cases h
        constructor
        · simp [sig.property]
        · refine ⟨docBytes, ?_, ?_, ?_⟩
          · exact rfl
          · intro _
            refine ⟨sig, rid, ?_, rfl⟩
            first
            | exact rfl
            | exact hsig
          · intro inj hinj
            exact nomatch hinj
    | ethermintSecp256k1 inj =>
      dsimp only at h
      cases hsig : prims.signPrehashRecoverable key (keccak256 docBytes) with
      | error e => rw [hsig] at h; cases h
      | ok p =>
        obtain ⟨sig, rid⟩ := p
        rw [hsig] at h
        dsimp only at h
        cases h
        constructor
        · simp [sig.property]
        · refine ⟨docBytes, ?_, ?_, ?_⟩
          · exact rfl
          · intro hsec
            exact nomatch hsec
          · intro inj' hinj
            cases hinj
            refine ⟨sig, rid, ?_, keccak256_length docBytes, rfl⟩
            first
            | exact rfl
            | exact hsig

/-- Closed instance of C4: with concrete signing primitives, an Ethermint
key yields a 65-byte signature (64 signature bytes plus the recovery byte)
and a standard key yields 64 bytes. -/
theorem claim_C4_witness :
    ({ body := { memo := "", msgs := [] },
       auth_info := { fee := { amount := [], gas_limit := 0 }, sequence := 0,
                      key_type := WalletKeyType.ethermintSecp256k1 false },
       signatures := [List.replicate 64 7 ++ [1]] } : SignedTx).signatures.map List.length
      = [65] ∧
    ({ body := { memo := "", msgs := [] },
       auth_info := { fee := { amount := [], gas_limit := 0 }, sequence := 0,
                      key_type := WalletKeyType.secp256k1 },
       signatures := [List.replicate 64 7] } : SignedTx).signatures.map List.length
      = [64] :=
  ⟨(claim_C4
      { encodeSignDoc := fun _ _ _ _ => Except.ok [1, 2, 3],
        signRecoverable := fun _ _ => Except.ok (⟨List.replicate 64 7, by simp⟩, 0),
        signPrehashRecoverable := fun _ _ => Except.ok (⟨List.replicate 64 7, by simp⟩, 1) }
      { id := "test-1", chain_supports_setting_withdrawal_address := false,
        bech32 := { accountHrp := "cosmos", valoperHrp := "cosmosvaloper" } }
      { key := 5, key_type := WalletKeyType.ethermintSecp256k1 false,
        account_number := 1, sequence := 0 }
      { amount := [], gas_limit := 0 }
      { memo := "", msgs := [] }
      { body := { memo := "", msgs := [] },
        auth_info := { fee := { amount := [], gas_limit := 0 }, sequence := 0,
                       key_type := WalletKeyType.ethermintSecp256k1 false },
        signatures := [List.replicate 64 7 ++ [1]] }
      rfl).1,
   (claim_C4
      { encodeSignDoc := fun _ _ _ _ => Except.ok [1, 2, 3],
        signRecoverable := fun _ _ => Except.ok (⟨List.replicate 64 7, by simp⟩, 0),
        signPrehashRecoverable := fun _ _ => Except.ok (⟨List.replicate 64 7, by simp⟩, 1) }
      { id := "test-1", chain_supports_setting_withdrawal_address := false,
        bech32 := { accountHrp := "cosmos", valoperHrp := "cosmosvaloper" } }
      { key := 5, key_type := WalletKeyType.secp256k1,
        account_number := 1, sequence := 0 }
      { amount := [], gas_limit := 0 }
      { memo := "", msgs := [] }
      { body := { memo := "", msgs := [] },
        auth_info := { fee := { amount := [], gas_limit := 0 }, sequence := 0,
                       key_type := WalletKeyType.secp256k1 },
        signatures := [List.replicate 64 7] }
      rfl).1⟩

theorem beBytes32_length (x : Nat) : (beBytes32 x).length = 32 := by
  simp [beBytes32]

/-- C5: for every public-key point and bech32 HRP, the Ethermint branch of
`TxSigner::account_id` drops the leading format byte of the 65-byte
uncompressed key, Keccak-256-hashes the remaining 64 bytes, and encodes the
low 20 bytes of the hash under the given HRP; the derivation is a function
of the key point and HRP (hence deterministic), and at the secp256k1
generator point (the public key of private key 1) it differs from the
address produced by the `Secp256k1` derivation under the same HRP. -/
theorem claim_C5 (x y : Nat) (hrp : String) :
    (∀ inj, SignerKey.account_id
        { pubX := x, pubY := y, key_type := WalletKeyType.ethermintSecp256k1 inj } hrp =
      { hrp := hrp,
        addrBytes := ((keccak256 ((uncompressedPubkeyBytes x y).drop 1)).drop 12).take 20 }) ∧
    (uncompressedPubkeyBytes x y).length = 65 ∧
    (uncompressedPubkeyBytes x y).drop 1 = beBytes32 x ++ beBytes32 y ∧
    (((keccak256 ((uncompressedPubkeyBytes x y).drop 1)).drop 12).take 20).length = 20 ∧
    SignerKey.account_id { pubX := x, pubY := y, key_type := WalletKeyType.secp256k1 } hrp =
      { hrp := hrp, addrBytes := ripemd160 (sha256 (compressedPubkeyBytes x y)) } ∧
    (∀ inj, SignerKey.account_id
        { pubX := secpGenX, pubY := secpGenY,
          key_type := WalletKeyType.ethermintSecp256k1 inj } "cosmos" ≠
      SignerKey.account_id
        { pubX := secpGenX, pubY := secpGenY, key_type := WalletKeyType.secp256k1 } "cosmos") := by
  refine ⟨fun inj => rfl, ?_, rfl, ?_, rfl, fun inj => ?_⟩
  · simp [uncompressedPubkeyBytes, beBytes32]
  · rw [List.length_take, List.length_drop, keccak256_length]
    rfl
  · show ethermintAccountId secpGenX secpGenY "cosmos" ≠ cosmosAccountId secpGenX secpGenY "cosmos"
    decide

end CosmosWithdrawer
